import Mathlib

/-!
Verification of the todo-list state machine of the TodoApp repository.

The data model and the controller operations are shallowly embedded from
`src/app/page.tsx` (namespace `Basic`, the default `TodoList` component) and
`src/app/optimized/page.tsx` (namespace `Opt`, the memoized variant).
React state (`useState` + `setTodos`) is modelled as explicit state passing:
every operation takes the current collection and returns the next one.
`Date.now()` is an environmental input, modelled as an explicit `now : Nat`
parameter of `addTodo`.
-/

/-- The JavaScript `String.prototype.trim()` method (as called by the add
paths of both variants), modelled over the character list of the string:
drop whitespace from the front and from the back. -/
def jsTrim (s : String) : String :=
  String.mk (((s.data.dropWhile Char.isWhitespace).reverse.dropWhile Char.isWhitespace).reverse)

/-- A todo record, from the `Todo` interface of both source files. -/
structure Todo where
  id : Nat
  text : String
  completed : Bool
  isEditing : Bool
deriving Repr, DecidableEq

namespace Basic

/-- Handler `addTodo` of `src/app/page.tsx` lines 20-28: if the draft text trims to
nonempty, append `{ id: Date.now(), text: newTodo, completed: false,
isEditing: false }`; otherwise do nothing. The raw (untrimmed) `newTodo`
is stored. -/
def addTodo (newTodo : String) (now : Nat) (todos : List Todo) : List Todo :=
  if jsTrim newTodo ≠ "" then
    todos ++ [{ id := now, text := newTodo, completed := false, isEditing := false }]
  else
    todos

/-- Handler `toggleTodo` of `src/app/page.tsx` lines 30-36. -/
def toggleTodo (id : Nat) (todos : List Todo) : List Todo :=
  todos.map (fun todo => if todo.id = id then { todo with completed := !todo.completed } else todo)

/-- Handler `removeTodo` of `src/app/page.tsx` lines 38-40. -/
def removeTodo (id : Nat) (todos : List Todo) : List Todo :=
  todos.filter (fun todo => todo.id != id)

/-- Handler `startEditing` of `src/app/page.tsx` lines 42-48. -/
def startEditing (id : Nat) (todos : List Todo) : List Todo :=
  todos.map (fun todo => if todo.id = id then { todo with isEditing := true } else todo)

/-- Handler `updateTodoText` of `src/app/page.tsx` lines 50-54. -/
def updateTodoText (id : Nat) (newText : String) (todos : List Todo) : List Todo :=
  todos.map (fun todo => if todo.id = id then { todo with text := newText } else todo)

/-- Handler `saveTodoEdit` of `src/app/page.tsx` lines 56-62. -/
def saveTodoEdit (id : Nat) (todos : List Todo) : List Todo :=
  todos.map (fun todo => if todo.id = id then { todo with isEditing := false } else todo)

end Basic

namespace Opt

/-- Handler `addTodo` of `src/app/optimized/page.tsx` lines 142-147: unconditionally
append the given text (the empty-check lives in `handleAdd`). -/
def addTodo (text : String) (now : Nat) (prev : List Todo) : List Todo :=
  prev ++ [{ id := now, text := text, completed := false, isEditing := false }]

/-- Handler `handleAdd` of the `TodoInput` component, `src/app/optimized/page.tsx`
lines 108-113: if the draft trims to nonempty, call `onAdd(newTodo.trim())`,
i.e. the trimmed text is what gets stored. -/
def handleAdd (newTodo : String) (now : Nat) (todos : List Todo) : List Todo :=
  if jsTrim newTodo ≠ "" then addTodo (jsTrim newTodo) now todos else todos

/-- Handler `toggleTodo` of `src/app/optimized/page.tsx` lines 149-155. -/
def toggleTodo (id : Nat) (todos : List Todo) : List Todo :=
  todos.map (fun todo => if todo.id = id then { todo with completed := !todo.completed } else todo)

/-- Handler `removeTodo` of `src/app/optimized/page.tsx` lines 157-159. -/
def removeTodo (id : Nat) (todos : List Todo) : List Todo :=
  todos.filter (fun todo => todo.id != id)

/-- Handler `startEditing` of `src/app/optimized/page.tsx` lines 161-167. -/
def startEditing (id : Nat) (todos : List Todo) : List Todo :=
  todos.map (fun todo => if todo.id = id then { todo with isEditing := true } else todo)

/-- Handler `updateTodoText` of `src/app/optimized/page.tsx` lines 169-173. -/
def updateTodoText (id : Nat) (newText : String) (todos : List Todo) : List Todo :=
  todos.map (fun todo => if todo.id = id then { todo with text := newText } else todo)

/-- Handler `saveTodoEdit` of `src/app/optimized/page.tsx` lines 175-181. -/
def saveTodoEdit (id : Nat) (todos : List Todo) : List Todo :=
  todos.map (fun todo => if todo.id = id then { todo with isEditing := false } else todo)

end Opt

/-- A user action at the UI event boundary, carrying the environmental
timestamp for adds (`Date.now()` at the moment of the click). -/
inductive Op where
  | add (now : Nat) (text : String)
  | toggle (id : Nat)
  | update (id : Nat) (newText : String)
  | start (id : Nat)
  | save (id : Nat)
  | remove (id : Nat)
deriving Repr, DecidableEq

/-- One controller step of the basic variant. -/
def Basic.applyOp (todos : List Todo) : Op → List Todo
  | .add now text => Basic.addTodo text now todos
  | .toggle id => Basic.toggleTodo id todos
  | .update id newText => Basic.updateTodoText id newText todos
  | .start id => Basic.startEditing id todos
  | .save id => Basic.saveTodoEdit id todos
  | .remove id => Basic.removeTodo id todos

/-- Run a sequence of user actions through the basic variant. -/
def Basic.exec (ops : List Op) (todos : List Todo) : List Todo :=
  ops.foldl Basic.applyOp todos

/-- One controller step of the optimized variant: an add goes through
`TodoInput.handleAdd`, which is the only caller of `Opt.addTodo`. -/
def Opt.applyOp (todos : List Todo) : Op → List Todo
  | .add now text => Opt.handleAdd text now todos
  | .toggle id => Opt.toggleTodo id todos
  | .update id newText => Opt.updateTodoText id newText todos
  | .start id => Opt.startEditing id todos
  | .save id => Opt.saveTodoEdit id todos
  | .remove id => Opt.removeTodo id todos

/-- Run a sequence of user actions through the optimized variant. -/
def Opt.exec (ops : List Op) (todos : List Todo) : List Todo :=
  ops.foldl Opt.applyOp todos

/-- Helper: mapping a per-item rewrite and then a projection is the same as
mapping the projected rewrite directly. -/
theorem map_map_congr {α : Type} (l : List Todo) (f : Todo → Todo) (p q : Todo → α)
    (h : ∀ t, p (f t) = q t) : (l.map f).map p = l.map q := by
  rw [List.map_map]
  congr 1
  funext t
  exact h t

/-- Helper: a per-item rewrite that fixes every member of the list is the
identity on that list. -/
theorem map_eq_self_of_fix (l : List Todo) (f : Todo → Todo)
    (h : ∀ t ∈ l, f t = t) : l.map f = l := by
  induction l with
  | nil => rfl
  | cons t ts ih =>
    simp only [List.map_cons, List.cons.injEq]
    exact ⟨h t (List.mem_cons_self t ts), ih fun x hx => h x (List.mem_cons_of_mem t hx)⟩

/-- Helper: the two variants transliterate the same `toggleTodo` code. -/
theorem opt_toggleTodo_eq_basic (id : Nat) (todos : List Todo) :
    Opt.toggleTodo id todos = Basic.toggleTodo id todos := rfl

/-- Helper: the two variants transliterate the same `removeTodo` code. -/
theorem opt_removeTodo_eq_basic (id : Nat) (todos : List Todo) :
    Opt.removeTodo id todos = Basic.removeTodo id todos := rfl

/-- Helper: the two variants transliterate the same `startEditing` code. -/
theorem opt_startEditing_eq_basic (id : Nat) (todos : List Todo) :
    Opt.startEditing id todos = Basic.startEditing id todos := rfl

/-- Helper: the two variants transliterate the same `updateTodoText` code. -/
theorem opt_updateTodoText_eq_basic (id : Nat) (s : String) (todos : List Todo) :
    Opt.updateTodoText id s todos = Basic.updateTodoText id s todos := rfl

/-- Helper: the two variants transliterate the same `saveTodoEdit` code. -/
theorem opt_saveTodoEdit_eq_basic (id : Nat) (todos : List Todo) :
    Opt.saveTodoEdit id todos = Basic.saveTodoEdit id todos := rfl

/-- C1: for every collection state and every input string, addTodo is a no-op
when the trimmed input is empty; otherwise it appends exactly one new Todo
with completed = false and isEditing = false, increasing the length by
exactly 1. Both the basic `addTodo` and the optimized `handleAdd` pipeline
satisfy this. -/
theorem addTodo_appends_or_noop (todos : List Todo) (newTodo : String) (now : Nat) :
    (jsTrim newTodo = "" →
      Basic.addTodo newTodo now todos = todos ∧ Opt.handleAdd newTodo now todos = todos) ∧
    (jsTrim newTodo ≠ "" →
      Basic.addTodo newTodo now todos
          = todos ++ [{ id := now, text := newTodo, completed := false, isEditing := false }] ∧
      Opt.handleAdd newTodo now todos
          = todos ++ [{ id := now, text := jsTrim newTodo, completed := false, isEditing := false }] ∧
      (Basic.addTodo newTodo now todos).length = todos.length + 1 ∧
      (Opt.handleAdd newTodo now todos).length = todos.length + 1) := by
  constructor
  · intro h
    simp [Basic.addTodo, Opt.handleAdd, h]
  · intro h
    simp [Basic.addTodo, Opt.handleAdd, Opt.addTodo, h]

/-- Witness for C1 at the concrete inputs of the spec. -/
theorem addTodo_appends_or_noop_witness :
    (Basic.addTodo "   " 7 [] = [] ∧ Opt.handleAdd "   " 7 [] = []) ∧
    (Basic.addTodo "Buy milk" 7 []
        = [{ id := 7, text := "Buy milk", completed := false, isEditing := false }] ∧
      (Opt.handleAdd "Buy milk" 7 []).length = 1) := by
  refine ⟨(addTodo_appends_or_noop [] "   " 7).1 (by decide), ?_⟩
  have h := (addTodo_appends_or_noop [] "Buy milk" 7).2 (by decide)
  exact ⟨by simpa using h.1, h.2.2.2⟩

/-- C5: toggleTodo flips the completed flag of the Todo whose id matches and
is its own inverse: toggling the same id twice restores the original
collection. -/
theorem toggleTodo_flips_and_involutive (todos : List Todo) (id : Nat) :
    Basic.toggleTodo id (Basic.toggleTodo id todos) = todos ∧
    (Basic.toggleTodo id todos).map (fun t => (t.id, t.completed)) =
      todos.map (fun t => (t.id, if t.id = id then !t.completed else t.completed)) := by
  constructor
  · simp only [Basic.toggleTodo, List.map_map]
    exact map_eq_self_of_fix todos _ (fun t _ => by
      obtain ⟨tid, ttext, tc, te⟩ := t
      by_cases h : tid = id <;> simp [h])
  · simp only [Basic.toggleTodo]
    exact map_map_congr todos _ _ _ (fun t => by
      by_cases h : t.id = id <;> simp [h])

/-- C6: startEditing followed by saveTodoEdit with no intervening update
leaves id, text and completed of every Todo unchanged, sets isEditing of the
matching Todo to false, leaves isEditing of every other Todo unchanged, and
preserves the length. -/
theorem startEditing_then_save_restores (todos : List Todo) (id : Nat) :
    (Basic.saveTodoEdit id (Basic.startEditing id todos)).map
        (fun t => (t.id, t.text, t.completed)) =
      todos.map (fun t => (t.id, t.text, t.completed)) ∧
    (Basic.saveTodoEdit id (Basic.startEditing id todos)).map Todo.isEditing =
      todos.map (fun t => if t.id = id then false else t.isEditing) ∧
    (Basic.saveTodoEdit id (Basic.startEditing id todos)).length = todos.length := by
  refine ⟨?_, ?_, by simp [Basic.saveTodoEdit, Basic.startEditing]⟩
  · simp only [Basic.saveTodoEdit, Basic.startEditing, List.map_map]
    congr 1
    funext t
    by_cases h : t.id = id <;> simp [h]
  · simp only [Basic.saveTodoEdit, Basic.startEditing, List.map_map]
    congr 1
    funext t
    by_cases h : t.id = id <;> simp [h]

/-- C2 counterexample: updateTodoText changes the text of a Todo whose
isEditing flag is false, refuting that text is set only while isEditing is
true. -/
theorem updateTodoText_edit_flag_counterexample :
    (({ id := 1, text := "a", completed := false, isEditing := false } : Todo).isEditing
        = false) ∧
    Basic.updateTodoText 1 "b" [{ id := 1, text := "a", completed := false, isEditing := false }]
      = [{ id := 1, text := "b", completed := false, isEditing := false }] := by
  decide

/-- C2 amended: updateTodoText sets the text of the matching Todo regardless
of its isEditing flag, leaves id, completed and isEditing of every Todo and
the text of every non-matching Todo unchanged, and is a no-op when no Todo
with the given id is present. -/
theorem updateTodoText_sets_text_regardless (todos : List Todo) (id : Nat) (newText : String) :
    (Basic.updateTodoText id newText todos).map (fun t => (t.id, t.completed, t.isEditing)) =
      todos.map (fun t => (t.id, t.completed, t.isEditing)) ∧
    (Basic.updateTodoText id newText todos).map Todo.text =
      todos.map (fun t => if t.id = id then newText else t.text) ∧
    ((∀ t ∈ todos, t.id ≠ id) → Basic.updateTodoText id newText todos = todos) := by
  refine ⟨?_, ?_, ?_⟩
  · exact map_map_congr todos _ _ _ (fun t => by by_cases h : t.id = id <;> simp [h])
  · exact map_map_congr todos _ _ _ (fun t => by by_cases h : t.id = id <;> simp [h])
  · intro h
    exact map_eq_self_of_fix todos _ (fun t ht => by simp [h t ht])

/-- Witness for the amended C2 at concrete inputs. -/
theorem updateTodoText_sets_text_regardless_witness :
    (Basic.updateTodoText 2 "x" [{ id := 1, text := "a", completed := false, isEditing := false }]
      = [{ id := 1, text := "a", completed := false, isEditing := false }]) ∧
    (Basic.updateTodoText 1 "x"
        [{ id := 1, text := "a", completed := false, isEditing := false }]).map Todo.text
      = ["x"] := by
  constructor
  · exact (updateTodoText_sets_text_regardless
      [{ id := 1, text := "a", completed := false, isEditing := false }] 2 "x").2.2 (by decide)
  · have h := (updateTodoText_sets_text_regardless
      [{ id := 1, text := "a", completed := false, isEditing := false }] 1 "x").2.1
    simpa using h

/-- C8: every controller operation is total and never signals failure: on an
id not present in the collection each of toggleTodo, updateTodoText,
startEditing, saveTodoEdit and removeTodo returns the collection unchanged,
and addTodo applied to an empty-after-trim string returns the collection
unchanged in both variants. -/
theorem operations_total_noop_on_invalid (todos : List Todo) (id now : Nat)
    (newText newTodo : String) (hid : ∀ t ∈ todos, t.id ≠ id)
    (hempty : jsTrim newTodo = "") :
    Basic.toggleTodo id todos = todos ∧
    Basic.updateTodoText id newText todos = todos ∧
    Basic.startEditing id todos = todos ∧
    Basic.saveTodoEdit id todos = todos ∧
    Basic.removeTodo id todos = todos ∧
    Basic.addTodo newTodo now todos = todos ∧
    Opt.handleAdd newTodo now todos = todos := by
  refine ⟨?_, ?_, ?_, ?_, ?_, by simp [Basic.addTodo, hempty], by simp [Opt.handleAdd, hempty]⟩
  · exact map_eq_self_of_fix todos _ (fun t ht => by simp [hid t ht])
  · exact map_eq_self_of_fix todos _ (fun t ht => by simp [hid t ht])
  · exact map_eq_self_of_fix todos _ (fun t ht => by simp [hid t ht])
  · exact map_eq_self_of_fix todos _ (fun t ht => by simp [hid t ht])
  · simp only [Basic.removeTodo]
    rw [List.filter_eq_self]
    intro t ht
    simpa using hid t ht

/-- Witness for C8 at concrete inputs: id 2 is absent and the draft trims to
empty. -/
theorem operations_total_noop_on_invalid_witness :
    Basic.toggleTodo 2 [{ id := 1, text := "a", completed := false, isEditing := false }]
      = [{ id := 1, text := "a", completed := false, isEditing := false }] ∧
    Basic.updateTodoText 2 "x" [{ id := 1, text := "a", completed := false, isEditing := false }]
      = [{ id := 1, text := "a", completed := false, isEditing := false }] ∧
    Basic.startEditing 2 [{ id := 1, text := "a", completed := false, isEditing := false }]
      = [{ id := 1, text := "a", completed := false, isEditing := false }] ∧
    Basic.saveTodoEdit 2 [{ id := 1, text := "a", completed := false, isEditing := false }]
      = [{ id := 1, text := "a", completed := false, isEditing := false }] ∧
    Basic.removeTodo 2 [{ id := 1, text := "a", completed := false, isEditing := false }]
      = [{ id := 1, text := "a", completed := false, isEditing := false }] ∧
    Basic.addTodo "   " 9 [{ id := 1, text := "a", completed := false, isEditing := false }]
      = [{ id := 1, text := "a", completed := false, isEditing := false }] ∧
    Opt.handleAdd "   " 9 [{ id := 1, text := "a", completed := false, isEditing := false }]
      = [{ id := 1, text := "a", completed := false, isEditing := false }] :=
  operations_total_noop_on_invalid
    [{ id := 1, text := "a", completed := false, isEditing := false }] 2 9 "x" "   "
    (by decide) (by decide)

/-- C9: addTodo either leaves the collection unchanged or appends the new
Todo at the end; toggleTodo, updateTodoText, startEditing and saveTodoEdit
keep the sequence of ids (hence the relative order) unchanged; removeTodo
yields a sublist of the original, preserving the relative order of the
remaining Todos. -/
theorem insertion_order_preserved (todos : List Todo) (id now : Nat)
    (newText text : String) :
    (Basic.addTodo text now todos = todos ∨
      Basic.addTodo text now todos
        = todos ++ [{ id := now, text := text, completed := false, isEditing := false }]) ∧
    (Basic.toggleTodo id todos).map Todo.id = todos.map Todo.id ∧
    (Basic.updateTodoText id newText todos).map Todo.id = todos.map Todo.id ∧
    (Basic.startEditing id todos).map Todo.id = todos.map Todo.id ∧
    (Basic.saveTodoEdit id todos).map Todo.id = todos.map Todo.id ∧
    (Basic.removeTodo id todos).Sublist todos := by
  refine ⟨?_, ?_, ?_, ?_, ?_, List.filter_sublist todos⟩
  · by_cases h : jsTrim text = ""
    · left
      simp [Basic.addTodo, h]
    · right
      simp [Basic.addTodo, h]
  · exact map_map_congr todos _ _ _ (fun t => by by_cases h : t.id = id <;> simp [h])
  · exact map_map_congr todos _ _ _ (fun t => by by_cases h : t.id = id <;> simp [h])
  · exact map_map_congr todos _ _ _ (fun t => by by_cases h : t.id = id <;> simp [h])
  · exact map_map_congr todos _ _ _ (fun t => by by_cases h : t.id = id <;> simp [h])

/-- C10: each per-item operation changes at most one field of matching
Todos (toggleTodo only completed, updateTodoText only text, startEditing and
saveTodoEdit only isEditing), every non-matching Todo keeps all four fields,
the length is unchanged by all four, and the optimized variant computes the
same four operations. -/
theorem per_item_frame_conditions (todos : List Todo) (id : Nat) (newText : String) :
    ((Basic.toggleTodo id todos).map (fun t => (t.id, t.text, t.isEditing)) =
      todos.map (fun t => (t.id, t.text, t.isEditing))) ∧
    ((Basic.toggleTodo id todos).map Todo.completed =
      todos.map (fun t => if t.id = id then !t.completed else t.completed)) ∧
    ((Basic.updateTodoText id newText todos).map (fun t => (t.id, t.completed, t.isEditing)) =
      todos.map (fun t => (t.id, t.completed, t.isEditing))) ∧
    ((Basic.updateTodoText id newText todos).map Todo.text =
      todos.map (fun t => if t.id = id then newText else t.text)) ∧
    ((Basic.startEditing id todos).map (fun t => (t.id, t.text, t.completed)) =
      todos.map (fun t => (t.id, t.text, t.completed))) ∧
    ((Basic.startEditing id todos).map Todo.isEditing =
      todos.map (fun t => if t.id = id then true else t.isEditing)) ∧
    ((Basic.saveTodoEdit id todos).map (fun t => (t.id, t.text, t.completed)) =
      todos.map (fun t => (t.id, t.text, t.completed))) ∧
    ((Basic.saveTodoEdit id todos).map Todo.isEditing =
      todos.map (fun t => if t.id = id then false else t.isEditing)) ∧
    (Basic.toggleTodo id todos).length = todos.length ∧
    (Basic.updateTodoText id newText todos).length = todos.length ∧
    (Basic.startEditing id todos).length = todos.length ∧
    (Basic.saveTodoEdit id todos).length = todos.length ∧
    Opt.toggleTodo id todos = Basic.toggleTodo id todos ∧
    Opt.updateTodoText id newText todos = Basic.updateTodoText id newText todos ∧
    Opt.startEditing id todos = Basic.startEditing id todos ∧
    Opt.saveTodoEdit id todos = Basic.saveTodoEdit id todos := by
  refine ⟨?_, ?_, ?_, ?_, ?_, ?_, ?_, ?_, by simp [Basic.toggleTodo],
    by simp [Basic.updateTodoText], by simp [Basic.startEditing],
    by simp [Basic.saveTodoEdit], rfl, rfl, rfl, rfl⟩ <;>
    exact map_map_congr todos _ _ _ (fun t => by by_cases h : t.id = id <;> simp [h])

/-- An add action whose text is unchanged by trimming (no surrounding
whitespace); non-add actions trivially qualify. -/
def Op.textTrimmed : Op → Bool
  | .add _ text => jsTrim text == text
  | _ => true

/-- C3 counterexample: on the input string " A" (with surrounding
whitespace) the basic variant stores the raw text while the optimized
variant stores the trimmed text, so the same action sequence produces
different collections. -/
theorem variants_differ_on_untrimmed_add :
    Basic.exec [Op.add 1 " A"] [] ≠ Opt.exec [Op.add 1 " A"] [] := by
  decide

/-- C3 amended: for every starting collection and every sequence of
controller actions in which each added text is unchanged by trimming, the
basic and the optimized variant produce equal resulting collections. -/
theorem variants_equiv_on_trimmed_inputs (ops : List Op) : ∀ todos : List Todo,
    (∀ op ∈ ops, op.textTrimmed = true) →
    Basic.exec ops todos = Opt.exec ops todos := by
  induction ops with
  | nil =>
    intro todos _
    rfl
  | cons op ops ih =>
    intro todos h
    have hop : op.textTrimmed = true := h op (List.mem_cons_self op ops)
    have htail : ∀ o ∈ ops, o.textTrimmed = true :=
      fun o ho => h o (List.mem_cons_of_mem op ho)
    have hstep : Basic.applyOp todos op = Opt.applyOp todos op := by
      cases op with
      | add now text =>
        have ht : jsTrim text = text := by simpa [Op.textTrimmed] using hop
        simp [Basic.applyOp, Opt.applyOp, Basic.addTodo, Opt.handleAdd, Opt.addTodo, ht]
      | toggle id => rfl
      | update id newText => rfl
      | start id => rfl
      | save id => rfl
      | remove id => rfl
    show Basic.exec ops (Basic.applyOp todos op) = Opt.exec ops (Opt.applyOp todos op)
    rw [hstep]
    exact ih (Opt.applyOp todos op) htail

/-- Witness for the amended C3 on a concrete action sequence. -/
theorem variants_equiv_on_trimmed_inputs_witness :
    Basic.exec [Op.add 1 "A", Op.toggle 1, Op.add 2 ""] [] =
      Opt.exec [Op.add 1 "A", Op.toggle 1, Op.add 2 ""] [] :=
  variants_equiv_on_trimmed_inputs [Op.add 1 "A", Op.toggle 1, Op.add 2 ""] [] (by decide)

/-- C4 counterexample: with two Todos sharing id 1 (reachable, since ids come
from the clock), removeTodo 1 deletes both, so the length drops by 2 and not
by exactly 1 even though a Todo with id 1 was present. -/
theorem removeTodo_duplicate_ids_counterexample :
    (({ id := 1, text := "a", completed := false, isEditing := false } : Todo) ∈
      ([{ id := 1, text := "a", completed := false, isEditing := false },
        { id := 1, text := "b", completed := false, isEditing := false }] : List Todo)) ∧
    (Basic.removeTodo 1
        [{ id := 1, text := "a", completed := false, isEditing := false },
         { id := 1, text := "b", completed := false, isEditing := false }]).length = 0 := by
  decide

/-- Helper: on a collection with pairwise-distinct ids, filtering away one
present id drops the length by exactly one. -/
theorem filter_ne_length_of_nodup (ts : List Todo) (id : Nat)
    (hnodup : (ts.map Todo.id).Nodup) (h : ∃ t ∈ ts, t.id = id) :
    (ts.filter (fun t => t.id != id)).length + 1 = ts.length := by
  induction ts with
  | nil =>
    obtain ⟨u, hu, _⟩ := h
    cases hu
  | cons t ts ih =>
    simp only [List.map_cons, List.nodup_cons] at hnodup
    obtain ⟨hnotin, hnd⟩ := hnodup
    obtain ⟨u, hu, huid⟩ := h
    by_cases ht : t.id = id
    · have hts : ∀ x ∈ ts, (x.id != id) = true := by
        intro x hx
        have hxid : x.id ≠ id := by
          intro hxid
          exact hnotin (ht ▸ hxid ▸ List.mem_map_of_mem Todo.id hx)
        simpa using hxid
      simp [List.filter_cons, ht, List.filter_eq_self.mpr hts]
    · have hu' : u ∈ ts := by
        rcases List.mem_cons.mp hu with rfl | h'
        · exact absurd huid ht
        · exact h'
      have := ih hnd ⟨u, hu', huid⟩
      simp only [List.filter_cons]
      have htb : (t.id != id) = true := by simpa using ht
      simp [htb, List.length_cons, ← this]

/-- C4 amended: on a collection whose ids are pairwise distinct, removeTodo
of a present id decreases the length by exactly 1; on every collection
(duplicate ids included) no Todo with the removed id remains, every
remaining Todo was already present, every Todo not bearing the id is
retained, and removeTodo of an absent id is a no-op. -/
theorem removeTodo_removes_present_id (todos : List Todo) (id : Nat) :
    ((todos.map Todo.id).Nodup → (∃ t ∈ todos, t.id = id) →
      (Basic.removeTodo id todos).length + 1 = todos.length) ∧
    (∀ t ∈ Basic.removeTodo id todos, t.id ≠ id) ∧
    (∀ t ∈ Basic.removeTodo id todos, t ∈ todos) ∧
    (∀ t ∈ todos, t.id ≠ id → t ∈ Basic.removeTodo id todos) ∧
    ((∀ t ∈ todos, t.id ≠ id) → Basic.removeTodo id todos = todos) := by
  refine ⟨fun hnodup h => filter_ne_length_of_nodup todos id hnodup h, ?_, ?_, ?_, ?_⟩
  · intro t ht
    have := (List.mem_filter.mp ht).2
    simpa using this
  · intro t ht
    exact (List.mem_filter.mp ht).1
  · intro t ht h
    simp only [Basic.removeTodo]
    rw [List.mem_filter]
    exact ⟨ht, by simpa using h⟩
  · intro h
    simp only [Basic.removeTodo]
    rw [List.filter_eq_self]
    intro t ht
    simpa using h t ht

/-- Witness for the amended C4: the length part on a duplicate-free
collection, and the universal parts also on a collection whose two Todos
share id 1. -/
theorem removeTodo_removes_present_id_witness :
    ((Basic.removeTodo 1
        [{ id := 1, text := "a", completed := false, isEditing := false },
         { id := 2, text := "b", completed := false, isEditing := false }]).length + 1 = 2 ∧
     (∀ t ∈ Basic.removeTodo 1
        [{ id := 1, text := "a", completed := false, isEditing := false },
         { id := 2, text := "b", completed := false, isEditing := false }], t.id ≠ 1)) ∧
    (∀ t ∈ Basic.removeTodo 1
        [{ id := 1, text := "a", completed := false, isEditing := false },
         { id := 1, text := "b", completed := false, isEditing := false }], t.id ≠ 1) ∧
    (∀ t ∈ ([{ id := 1, text := "a", completed := false, isEditing := false },
         { id := 1, text := "b", completed := false, isEditing := false }] : List Todo),
      t.id ≠ 3 → t ∈ Basic.removeTodo 3
        [{ id := 1, text := "a", completed := false, isEditing := false },
         { id := 1, text := "b", completed := false, isEditing := false }]) ∧
    Basic.removeTodo 3
        [{ id := 1, text := "a", completed := false, isEditing := false },
         { id := 1, text := "b", completed := false, isEditing := false }]
      = [{ id := 1, text := "a", completed := false, isEditing := false },
         { id := 1, text := "b", completed := false, isEditing := false }] := by
  have h1 := removeTodo_removes_present_id
    [{ id := 1, text := "a", completed := false, isEditing := false },
     { id := 2, text := "b", completed := false, isEditing := false }] 1
  have h2 := removeTodo_removes_present_id
    [{ id := 1, text := "a", completed := false, isEditing := false },
     { id := 1, text := "b", completed := false, isEditing := false }] 1
  have h3 := removeTodo_removes_present_id
    [{ id := 1, text := "a", completed := false, isEditing := false },
     { id := 1, text := "b", completed := false, isEditing := false }] 3
  exact ⟨⟨h1.1 (by decide) ⟨{ id := 1, text := "a", completed := false, isEditing := false },
    by decide, rfl⟩, h1.2.1⟩, h2.2.1, h3.2.2.2.1, h3.2.2.2.2 (by decide)⟩

/-- C7 counterexample: two add actions carrying the same timestamp (the
clock did not advance between the clicks) yield a reachable collection in
which two Todos share id 5, refuting lifetime id uniqueness. -/
theorem reachable_duplicate_ids_counterexample :
    (Basic.exec [Op.add 5 "a", Op.add 5 "b"] []).map Todo.id = [5, 5] ∧
    ¬ ((Basic.exec [Op.add 5 "a", Op.add 5 "b"] []).map Todo.id).Nodup := by
  decide

/-- C7 amended: id uniqueness is preserved by every operation provided each
add receives a timestamp not already used as an id in the collection; with
equal timestamps (adds in the same millisecond) uniqueness can fail. -/
theorem ids_nodup_preserved_with_fresh_ids (todos : List Todo) (id now : Nat)
    (newText text : String) (hnodup : (todos.map Todo.id).Nodup) :
    (now ∉ todos.map Todo.id → ((Basic.addTodo text now todos).map Todo.id).Nodup) ∧
    ((Basic.toggleTodo id todos).map Todo.id).Nodup ∧
    ((Basic.updateTodoText id newText todos).map Todo.id).Nodup ∧
    ((Basic.startEditing id todos).map Todo.id).Nodup ∧
    ((Basic.saveTodoEdit id todos).map Todo.id).Nodup ∧
    ((Basic.removeTodo id todos).map Todo.id).Nodup := by
  refine ⟨?_, ?_, ?_, ?_, ?_, ?_⟩
  · intro hfresh
    by_cases h : jsTrim text = ""
    · simpa [Basic.addTodo, h] using hnodup
    · simp [Basic.addTodo, h, List.nodup_append, hnodup, hfresh]
  · simp only [Basic.toggleTodo]
    rw [map_map_congr todos _ Todo.id Todo.id
      (fun t => by by_cases h : t.id = id <;> simp [h])]
    exact hnodup
  · simp only [Basic.updateTodoText]
    rw [map_map_congr todos _ Todo.id Todo.id
      (fun t => by by_cases h : t.id = id <;> simp [h])]
    exact hnodup
  · simp only [Basic.startEditing]
    rw [map_map_congr todos _ Todo.id Todo.id
      (fun t => by by_cases h : t.id = id <;> simp [h])]
    exact hnodup
  · simp only [Basic.saveTodoEdit]
    rw [map_map_congr todos _ Todo.id Todo.id
      (fun t => by by_cases h : t.id = id <;> simp [h])]
    exact hnodup
  · exact List.Nodup.sublist ((List.filter_sublist todos).map Todo.id) hnodup

/-- Witness for the amended C7 at concrete inputs with a fresh timestamp. -/
theorem ids_nodup_preserved_with_fresh_ids_witness :
    ((Basic.addTodo "c" 3
        [{ id := 1, text := "a", completed := false, isEditing := false },
         { id := 2, text := "b", completed := false, isEditing := false }]).map Todo.id).Nodup ∧
    ((Basic.removeTodo 1
        [{ id := 1, text := "a", completed := false, isEditing := false },
         { id := 2, text := "b", completed := false, isEditing := false }]).map Todo.id).Nodup := by
  have h := ids_nodup_preserved_with_fresh_ids
    [{ id := 1, text := "a", completed := false, isEditing := false },
     { id := 2, text := "b", completed := false, isEditing := false }] 1 3 "x" "c" (by decide)
  exact ⟨h.1 (by decide), h.2.2.2.2.2⟩
